import Mathlib

/-!
Verification of the measurement/sweep engine of `qcodes/measurement.py`
(`Measurement`, `Sweep`, `running_measurement`).

The Python code is shallowly embedded: the mutable attributes of a running
`Measurement` (`loop_shape`, `loop_indices`, `action_indices`,
`_masked_properties`, `actions`/`action_names`, the pause/stop flags, the
class-level `running_measurement` pointer, the data/set array registries)
become fields of explicit state structures, and the methods become pure
state-passing functions.  Python exceptions become `Except`/`Option`
results, and side effects on external objects (parameter values, object
attributes, dict entries) become updates of an explicit environment
function from slots to values.
-/

namespace QcodesMeasurement

/-! ## Loop geometry (`Measurement.loop_shape` / `loop_indices` / `action_indices`)

`loop_shape` is a tuple of sweep extents, `loop_indices` the matching tuple
of current indices, `action_indices` the address of the current action.
Components of `action_indices` and `loop_indices` are modelled as `Int`
(Python integers; `revert` can drive an action index negative, and a
reversed sweep of an empty sequence would start its loop index at -1). -/

structure Geometry where
  loop_shape : List Nat
  loop_indices : List Int
  action_indices : List Int
deriving Repr, DecidableEq

/-- Replace the last element of a list by `f` applied to it (Python
`xs[-1] = f(xs[-1])`).  On an empty list Python raises `IndexError`; the
model returns the empty list, and no theorem below relies on that case. -/
def updateLast (f : Int → Int) : List Int → List Int
  | [] => []
  | [x] => [f x]
  | x :: y :: xs => x :: updateLast f (y :: xs)

/-- `Sweep.__iter__` (measurement.py lines 1237-1246): the loop index starts
at `len(sequence) - 1` when `reverse` else `0`; one extent is appended to
`loop_shape`, one index to `loop_indices`, and one zero component to
`action_indices`. -/
def sweep_iter (seqLen : Nat) (reverse : Bool) (g : Geometry) : Geometry :=
  { g with
    loop_shape := g.loop_shape ++ [seqLen]
    loop_indices := g.loop_indices ++ [if reverse then (seqLen : Int) - 1 else 0]
    action_indices := g.action_indices ++ [0] }

/-- Geometry effect of a successful `Sweep.__next__` step (lines 1266-1276):
`loop_indices[dimension] = self.loop_index`, and the last component of
`action_indices` is reset to zero. -/
def sweep_next_step (dimension : Nat) (loopIndex : Int) (g : Geometry) : Geometry :=
  { g with
    loop_indices := g.loop_indices.set dimension loopIndex
    action_indices := updateLast (fun _ => 0) g.action_indices }

/-- `Measurement.step_out` (lines 1146-1161): when `reduce_dimension`, drop
the last entry of `loop_shape` and `loop_indices`; always drop the last
action index and increment the one before it. -/
def step_out (reduce_dimension : Bool) (g : Geometry) : Geometry :=
  { loop_shape := if reduce_dimension then g.loop_shape.dropLast else g.loop_shape
    loop_indices := if reduce_dimension then g.loop_indices.dropLast else g.loop_indices
    action_indices := updateLast (fun x => x + 1) g.action_indices.dropLast }

/-- Geometry effect of a nested `Measurement.__enter__` (line 188):
`msmt.action_indices += (0,)`; loop shape and indices are untouched. -/
def nested_enter (g : Geometry) : Geometry :=
  { g with action_indices := g.action_indices ++ [0] }

/-- `Measurement.skip` (lines 1099-1131): adds `N` to the last component of
`action_indices`, stores the result back into the session state, and
returns the new address. -/
def skip (N : Int) (g : Geometry) : List Int × Geometry :=
  let action_indices := updateLast (fun x => x + N) g.action_indices
  (action_indices, { g with action_indices := action_indices })

/-- `Measurement.revert` (lines 1133-1144): subtracts `N` from the last
component of `action_indices`, stores the result back into the session
state, and returns the new address. -/
def revert (N : Int) (g : Geometry) : List Int × Geometry :=
  let action_indices := updateLast (fun x => x - N) g.action_indices
  (action_indices, { g with action_indices := action_indices })

/-- One geometry-affecting event of a running session: sweep entry
(`Sweep.__iter__`), sweep step (`Sweep.__next__`), sweep exhaustion
(`exit_sweep`, i.e. `step_out(reduce_dimension=True)`), nested-measurement
entry and exit (`step_out(reduce_dimension=False)`), and the address
adjustments `skip`/`revert` performed inside `measure`. -/
inductive GeomOp where
  | sweepEnter (seqLen : Nat) (reverse : Bool)
  | sweepStep (dimension : Nat) (loopIndex : Int)
  | sweepExit
  | nestedEnter
  | nestedExit
  | skipN (N : Int)
  | revertN (N : Int)
deriving Repr, DecidableEq

def applyGeomOp : GeomOp → Geometry → Geometry
  | .sweepEnter n r, g => sweep_iter n r g
  | .sweepStep d i, g => sweep_next_step d i g
  | .sweepExit, g => step_out true g
  | .nestedEnter, g => nested_enter g
  | .nestedExit, g => step_out false g
  | .skipN n, g => (skip n g).2
  | .revertN n, g => (revert n g).2

def runGeom : List GeomOp → Geometry → Geometry
  | [], g => g
  | op :: ops, g => runGeom ops (applyGeomOp op g)

/-! ## Action registry (`Measurement.actions` / `action_names`,
`Measurement._verify_action`) -/

/-- The `action_names` registry: pairs of action indices and the registered
action name, in registration order. -/
abbrev ActionRegistry := List (List Int × String)

/-- First registered name for an address, if any (dict lookup
`self.action_names[self.action_indices]`). -/
def lookupAction : ActionRegistry → List Int → Option String
  | [], _ => none
  | (a, s) :: rest, ai => if a = ai then some s else lookupAction rest ai

/-- The error message of `_verify_action`, naming the expected and the
received action. -/
def mismatchMessage (expected received : String) : String :=
  "Wrong measurement at action_indices. Expected: " ++ expected ++
    ". Received: " ++ received

/-- `Measurement._verify_action` (lines 503-518): an unknown address is
registered when `add_if_new`; a known address with a different name raises
`RuntimeError` naming the expected and the received action. -/
def verify_action (reg : ActionRegistry) (ai : List Int) (name : String)
    (add_if_new : Bool) : Except String ActionRegistry :=
  match lookupAction reg ai with
  | none => if add_if_new then .ok (reg ++ [(ai, name)]) else .ok reg
  | some registered =>
      if name = registered then .ok reg
      else .error (mismatchMessage registered name)

/-- Run a sequence of `(action_indices, name)` verifications, as performed
by the `_measure_*` methods along one run of the action sequence
(`add_if_new=True` at every call site). -/
def runActionSequence (reg : ActionRegistry) :
    List (List Int × String) → Except String ActionRegistry
  | [] => .ok reg
  | (ai, n) :: rest =>
    match verify_action reg ai n true with
    | .ok reg2 => runActionSequence reg2 rest
    | .error e => .error e

/-! ## Mask records (`Measurement._mask_attr` / `_mask_parameter` /
`_mask_key`, `unmask`, `unmask_all`)

A maskable location is a slot: a parameter's value, an object attribute,
or a dict key.  The world of maskable values is an explicit environment
`Slot → Int`.  A restore that raises (e.g. `setattr` failing) is modelled
by a `broken` predicate on slots. -/

inductive MaskType where
  | parameterMask
  | attrMask
  | keyMask
deriving Repr, DecidableEq

structure Slot where
  mtype : MaskType
  obj : Nat
  sel : Option String
deriving Repr, DecidableEq

abbrev Env := Slot → Int

/-- One entry of `Measurement._masked_properties`: the dict
`{type, obj, attr/key, original_value, value}`. -/
structure MaskedProperty where
  slot : Slot
  original_value : Int
  value : Int
deriving Repr, DecidableEq

/-- The mask-related state of one `Measurement`: the external environment
plus this session's `_masked_properties` list. -/
structure MaskState where
  env : Env
  masked_properties : List MaskedProperty

/-- Common body of `_mask_attr` / `_mask_parameter` / `_mask_key`
(lines 887-970): read the current value, write the new value, and append a
record holding both. -/
def mask_push (sl : Slot) (value : Int) (s : MaskState) : MaskState :=
  let original_value := s.env sl
  { env := Function.update s.env sl value
    masked_properties := s.masked_properties ++ [⟨sl, original_value, value⟩] }

def mask_attr (obj : Nat) (attr : String) (value : Int) (s : MaskState) : MaskState :=
  mask_push ⟨MaskType.attrMask, obj, some attr⟩ value s

def mask_parameter (obj : Nat) (value : Int) (s : MaskState) : MaskState :=
  mask_push ⟨MaskType.parameterMask, obj, none⟩ value s

def mask_key (obj : Nat) (key : String) (value : Int) (s : MaskState) : MaskState :=
  mask_push ⟨MaskType.keyMask, obj, some key⟩ value s

/-- Push a whole list of masks in order. -/
def mask_push_all (ps : List (Slot × Int)) (s : MaskState) : MaskState :=
  ps.foldl (fun acc p => mask_push p.1 p.2 acc) s

/-- Restoring one masked property (the `original_value` branch of `unmask`,
lines 1054-1065): write the recorded original value back, unless the
target's set-contract raises (`broken`). -/
def restore_masked (broken : Slot → Bool) (p : MaskedProperty) (e : Env) : Option Env :=
  if broken p.slot then none
  else some (Function.update e p.slot p.original_value)

/-- Restore a list of records in order, swallowing failures
(`raise_exception=False`): a failing record is logged and skipped. -/
def unmask_fold (broken : Slot → Bool) (props : List MaskedProperty) (e : Env) : Env :=
  props.foldl (fun acc p =>
    match restore_masked broken p acc with
    | some e2 => e2
    | none => acc) e

/-- `Measurement.unmask_all` (lines 1077-1082): restore every record in
reverse-of-push order with `raise_exception=False`, then clear the list. -/
def unmask_all (broken : Slot → Bool) (s : MaskState) : MaskState :=
  { env := unmask_fold broken s.masked_properties.reverse s.env
    masked_properties := [] }

/-- `masked_property.get("attr")`: only attr-type records carry an `attr`
entry. -/
def record_attr (p : MaskedProperty) : Option String :=
  match p.slot.mtype with
  | MaskType.attrMask => p.slot.sel
  | _ => none

/-- `masked_property.get("key")`: only key-type records carry a `key`
entry. -/
def record_key (p : MaskedProperty) : Option String :=
  match p.slot.mtype with
  | MaskType.keyMask => p.slot.sel
  | _ => none

/-- The record filter of `Measurement.unmask` (lines 1040-1048): a record
is unmasked iff its object matches and every given selector matches. -/
def matches_unmask_filter (obj : Nat) (attr key : Option String)
    (p : MaskedProperty) : Bool :=
  if p.slot.obj ≠ obj then false
  else if attr.isSome && record_attr p ≠ attr then false
  else if key.isSome && record_key p ≠ key then false
  else true

/-- Restore a list of records in order with `raise_exception=True`: the
first failure aborts and is re-raised, returning the partially restored
environment and the failing record. -/
def unmask_seq (broken : Slot → Bool) :
    List MaskedProperty → Env → Env × Option MaskedProperty
  | [], e => (e, none)
  | p :: ps, e =>
    match restore_masked broken p e with
    | some e2 => unmask_seq broken ps e2
    | none => (e, some p)

/-- The filtered branch of `Measurement.unmask` (lines 1035-1053, no
`original_value` passed): split the records by the filter, restore the
matching ones in reverse-of-push order with `raise_exception=True`, and
only on full success replace `_masked_properties` by the remaining
records.  The second component is the re-raised failing record, if any. -/
def unmask_matching (broken : Slot → Bool) (obj : Nat) (attr key : Option String)
    (s : MaskState) : MaskState × Option MaskedProperty :=
  match unmask_seq broken
      ((s.masked_properties.filter (matches_unmask_filter obj attr key)).reverse)
      s.env with
  | (e, none) =>
      ({ env := e,
         masked_properties := s.masked_properties.filter
           (fun p => !(matches_unmask_filter obj attr key p)) }, none)
  | (e, some p) => ({ env := e, masked_properties := s.masked_properties }, some p)

/-- A `broken` predicate under which every restore succeeds. -/
def noFail : Slot → Bool := fun _ => false

/-! ## Nested sessions and mask stacks (claim C4)

A nested `Measurement.__enter__` (lines 173-196) copies `loop_shape`,
`loop_indices`, `action_indices`, `data_arrays`, `set_arrays` and
`timings` from the primary measurement, but NOT `_masked_properties`:
each `Measurement.__init__` creates its own empty `_masked_properties`
list, `mask` appends to `self._masked_properties`, and every `__exit__`
calls `self.unmask_all()`. -/

structure TwoSessionState where
  env : Env
  outer_masked : List MaskedProperty
  nested_masked : List MaskedProperty

/-- `mask` called on the outermost session: appends to the outermost
session's own `_masked_properties`. -/
def outer_mask (sl : Slot) (v : Int) (s : TwoSessionState) : TwoSessionState :=
  let m := mask_push sl v ⟨s.env, s.outer_masked⟩
  { s with env := m.env, outer_masked := m.masked_properties }

/-- `mask` called on a nested session: appends to the nested session's own
`_masked_properties` (`self._masked_properties.append`, line 904). -/
def nested_mask (sl : Slot) (v : Int) (s : TwoSessionState) : TwoSessionState :=
  let m := mask_push sl v ⟨s.env, s.nested_masked⟩
  { s with env := m.env, nested_masked := m.masked_properties }

def nested_mask_all (ps : List (Slot × Int)) (s : TwoSessionState) : TwoSessionState :=
  ps.foldl (fun acc p => nested_mask p.1 p.2 acc) s

/-- The `unmask_all` performed by the nested session's `__exit__`
(line 251). -/
def nested_exit_unmask (s : TwoSessionState) : TwoSessionState :=
  let m := unmask_all noFail ⟨s.env, s.nested_masked⟩
  { s with env := m.env, nested_masked := m.masked_properties }

/-- The `unmask_all` performed by the outermost session's `__exit__`
(line 251). -/
def outer_exit_unmask (s : TwoSessionState) : TwoSessionState :=
  let m := unmask_all noFail ⟨s.env, s.outer_masked⟩
  { s with env := m.env, outer_masked := m.masked_properties }

/-! ## Control flags (`pause` / `resume` / `stop`) and suspend points -/

structure ControlState where
  is_context_manager : Bool
  is_paused : Bool
  is_stopped : Bool
deriving Repr, DecidableEq

/-- `Measurement.pause` (lines 1085-1087). -/
def pause (c : ControlState) : ControlState := { c with is_paused := true }

/-- `Measurement.resume` (lines 1089-1091). -/
def resume (c : ControlState) : ControlState := { c with is_paused := false }

/-- `Measurement.stop` (lines 1093-1097): set `is_stopped`, then `resume()`
to unpause the loop. -/
def stop (c : ControlState) : ControlState :=
  resume { c with is_stopped := true }

/-- A control call made by an external (operator) thread while the
measurement thread sits at a suspend point: `pause()`, `resume()`, or
`stop()`. -/
inductive ControlAction where
  | pauseA
  | resumeA
  | stopA
deriving Repr, DecidableEq

def applyControl (a : ControlAction) (c : ControlState) : ControlState :=
  match a with
  | .pauseA => pause c
  | .resumeA => resume c
  | .stopA => stop c

/-- The control calls landing during one `sleep(0.1)` of the pause poll,
applied in order. -/
def applyControlBatch (b : List ControlAction) (c : ControlState) : ControlState :=
  b.foldl (fun s a => applyControl a s) c

/-- The pause poll `while self.is_paused: sleep(0.1)` (lines 833-834 and
1263-1264): each iteration reads `is_paused`; while it is set the thread
sleeps, during which a batch of external control calls may land, and
re-reads.  `schedule` lists the batches landing during successive sleeps.
Returns the control state read by the poll iteration that exits the loop,
or `none` when the schedule is exhausted with the session still paused
(the thread stays parked in the poll).  Note the loop re-reads only
`is_paused`; `is_stopped` is not re-checked after the poll. -/
def pause_poll : List (List ControlAction) → ControlState → Option ControlState
  | [], c => if c.is_paused then none else some c
  | b :: rest, c =>
      if c.is_paused then pause_poll rest (applyControlBatch b c) else some c

/-- Outcome of one suspend point: the pre-poll checks may raise, the
thread may stay parked in the pause poll, or the suspend point proceeds
(the sweep produces its next value / the measurement is dispatched) in
the control state the final poll read observed. -/
inductive SuspendResult where
  | contextManagerError
  | threadError
  | systemExit
  | parked
  | proceed (c : ControlState)
deriving Repr, DecidableEq

/-- The suspend point at the top of `Sweep.__next__` (lines 1251-1264):
missing context manager raises, then `is_stopped` raises `SystemExit`,
then the pause poll runs; once the poll reads `is_paused == False` the
step proceeds and produces the next sweep value without re-checking
`is_stopped`. -/
def sweep_next_suspend (c : ControlState)
    (schedule : List (List ControlAction)) : SuspendResult :=
  if !c.is_context_manager then .contextManagerError
  else if c.is_stopped then .systemExit
  else
    match pause_poll schedule c with
    | none => .parked
    | some c2 => .proceed c2

/-- The suspend point at the top of `Measurement.measure`
(lines 808-834): context-manager check, `is_stopped` check (raising
`SystemExit`), thread-affinity check, then the pause poll; once the poll
reads `is_paused == False` the call proceeds to the dispatch without
re-checking `is_stopped`. -/
def measure_suspend (c : ControlState) (sameThread : Bool)
    (schedule : List (List ControlAction)) : SuspendResult :=
  if !c.is_context_manager then .contextManagerError
  else if c.is_stopped then .systemExit
  else if !sameThread then .threadError
  else
    match pause_poll schedule c with
    | none => .parked
    | some c2 => .proceed c2

/-! ## `measure` dispatch -/

/-- The kind of a measurable, as discriminated by `measure`
(lines 850-868).  The raw value kinds are the members of
`RAW_VALUE_TYPES = (float, int, bool, np.ndarray, np.integer, np.floating,
np.bool_, type(None))` (line 23); the numpy scalar kinds are folded into
their Python counterparts. -/
inductive Measurable where
  | parameterV
  | multiParameterV
  | callableV
  | dictV
  | floatV
  | intV
  | boolV
  | ndarrayV
  | noneV
  | otherV
deriving Repr, DecidableEq

/-- `isinstance(measurable, RAW_VALUE_TYPES)`: `None` is among the accepted
raw value types. -/
def isRawValueType : Measurable → Bool
  | .floatV => true
  | .intV => true
  | .boolV => true
  | .ndarrayV => true
  | .noneV => true
  | _ => false

/-- `callable(measurable)`: parameters are callable objects. -/
def isCallableValue : Measurable → Bool
  | .parameterV => true
  | .multiParameterV => true
  | .callableV => true
  | _ => false

inductive MeasureError where
  | contextManagerError
  | stoppedError
  | threadError
  | missingName
  | unsupportedType
deriving Repr, DecidableEq

inductive MeasurePath where
  | parameterPath
  | multiParameterPath
  | callablePath
  | dictPath
  | valuePath
deriving Repr, DecidableEq

/-- The dispatch chain of `measure` (lines 850-868): `Parameter`,
`MultiParameter`, `callable`, `dict`, then `RAW_VALUE_TYPES` going to
`_measure_value` (which raises when `name is None`, line 749-750), else
the unsupported-type error. -/
def measure_dispatch (m : Measurable) (name : Option String) :
    Except MeasureError MeasurePath :=
  if m = .parameterV then .ok .parameterPath
  else if m = .multiParameterV then .ok .multiParameterPath
  else if isCallableValue m then .ok .callablePath
  else if m = .dictV then .ok .dictPath
  else if isRawValueType m then
    match name with
    | none => .error .missingName
    | some _ => .ok .valuePath
  else .error .unsupportedType

/-- `Measurement.measure` (lines 808-868), given that the call is not
left parked in the pause poll: the entry checks — context-manager check,
`is_stopped` check (raising `SystemExit`), thread-affinity check — and
then the dispatch.  The pause poll sitting between the checks and the
dispatch is modelled by `measure_suspend`/`pause_poll`; once the poll
exits, the poll delays but does not change which dispatch path is
taken. -/
def measure (c : ControlState) (sameThread : Bool) (m : Measurable)
    (name : Option String) : Except MeasureError MeasurePath :=
  if !c.is_context_manager then .error .contextManagerError
  else if c.is_stopped then .error .stoppedError
  else if !sameThread then .error .threadError
  else measure_dispatch m name

/-! ## Array creation cap (`Measurement._create_data_array`) -/

/-- The array registries of the running session: `data_arrays` holds the
measured arrays, `set_arrays` the setpoint arrays (lines 414-418 store a
new array in one or the other, keyed by `is_setpoint`). -/
structure ArrayCounts where
  data_array_count : Nat
  set_array_count : Nat
deriving Repr, DecidableEq

inductive CreateArrayError where
  | missingParameterAndName
  | tooManyArrays
deriving Repr, DecidableEq

/-- The guard clauses of `Measurement._create_data_array` (lines 356-366):
first the parameter/name `SyntaxError`, then the cap
`len(running_measurement().data_arrays) >= self.max_arrays`, which counts
only the measured arrays and not the setpoint arrays. -/
def create_data_array_check (hasParameter hasName : Bool) (counts : ArrayCounts)
    (max_arrays : Nat) : Except CreateArrayError Unit :=
  if !hasParameter && !hasName then .error .missingParameterAndName
  else if max_arrays ≤ counts.data_array_count then .error .tooManyArrays
  else .ok ()

/-! ## Session exit: dataset finalization -/

inductive DatasetOutcome where
  | finalized
  | closed
deriving Repr, DecidableEq

/-- The dataset decision of the outermost `__exit__` (lines 269-278):
finalize unless every array is a setpoint array, in which case only close
the file and save metadata.  `arrays` lists the `is_setpoint` flag of each
array in the dataset. -/
def exit_dataset_outcome (arrays : List Bool) : DatasetOutcome :=
  if arrays.all (fun b => b) then .closed else .finalized

/-! ## Enter/exit lifecycle and the running-session pointer -/

/-- `Measurement.__enter__` (lines 140-223), abstracted to its effect on
the class-level `Measurement.running_measurement` pointer.  `running` is
the pointer before entry and `self` this session's identity;
`body_raises` says whether any statement of the try-body raises (dataset
creation, metadata saving, the thread check, the cell-thread check).  The
result is the pointer after entry, as `.error` when `__enter__` re-raises:
the except clause (lines 219-223) resets the pointer to `None` when it
points at `self` before propagating. -/
def measurement_enter (running : Option Nat) (self : Nat) (body_raises : Bool) :
    Except (Option Nat) (Option Nat) :=
  let running2 := if running = none then some self else running
  if body_raises then
    .error (if running2 = some self then none else running2)
  else
    .ok running2

/-- The observable steps of `Measurement.__exit__`, in program order. -/
inductive ExitEvent where
  | clearRunningPointer
  | logError
  | exceptActions
  | globalExceptActions
  | finalActions
  | unmaskAllMasks
  | globalFinalActions
  | notifyObserver
  | finalizeDataset
  | closeDataset
  | stepOutGroup
deriving Repr, DecidableEq

/-- `Measurement.__exit__` (lines 225-287) as its ordered event trace.
`is_running_self` says whether this session is the registered running
measurement (the outermost one); the very first statement then clears
`Measurement.running_measurement` (lines 233-237), before except actions,
final actions, unmasking, and dataset finalization. -/
def measurement_exit_events (is_running_self has_exception all_setpoint : Bool) :
    List ExitEvent :=
  (if is_running_self then [ExitEvent.clearRunningPointer] else []) ++
  (if has_exception then
      [ExitEvent.logError, ExitEvent.exceptActions] ++
      (if is_running_self then [ExitEvent.globalExceptActions] else [])
    else []) ++
  [ExitEvent.finalActions, ExitEvent.unmaskAllMasks] ++
  (if is_running_self then
      [ExitEvent.globalFinalActions, ExitEvent.notifyObserver] ++
      (if all_setpoint then [ExitEvent.closeDataset] else [ExitEvent.finalizeDataset])
    else [ExitEvent.stepOutGroup])

/-! ## Names used in concrete witnesses and counterexamples -/

def nameX : String := "x"
def nameY : String := "y"
def selA : String := "a"
def selB : String := "b"

def slotA : Slot := ⟨MaskType.attrMask, 0, some selA⟩
def slotB : Slot := ⟨MaskType.attrMask, 0, some selB⟩

def envZero : Env := fun _ => 0

/-- A set-contract that raises exactly on `slotB`. -/
def brokenB : Slot → Bool := fun sl => sl = slotB

/-! ## Helper lemmas -/

lemma updateLast_length (f : Int → Int) (xs : List Int) :
    (updateLast f xs).length = xs.length := by
  induction xs with
  | nil => rfl
  | cons x xs ih =>
    cases xs with
    | nil => rfl
    | cons y ys => simpa [updateLast] using ih

lemma updateLast_concat (f : Int → Int) (xs : List Int) (x : Int) :
    updateLast f (xs ++ [x]) = xs ++ [f x] := by
  induction xs with
  | nil => rfl
  | cons y ys ih =>
    cases ys with
    | nil => simp [updateLast]
    | cons z zs => simpa [updateLast] using ih

lemma applyGeomOp_shape_indices (op : GeomOp) (g : Geometry)
    (h : g.loop_shape.length = g.loop_indices.length) :
    (applyGeomOp op g).loop_shape.length = (applyGeomOp op g).loop_indices.length := by
  cases op with
  | sweepEnter n r => simp [applyGeomOp, sweep_iter, h]
  | sweepStep d i => simp [applyGeomOp, sweep_next_step, h]
  | sweepExit => simp [applyGeomOp, step_out, h]
  | nestedEnter => simp [applyGeomOp, nested_enter, h]
  | nestedExit => simp [applyGeomOp, step_out, h]
  | skipN n => simp [applyGeomOp, skip, h]
  | revertN n => simp [applyGeomOp, revert, h]

lemma runGeom_shape_indices (ops : List GeomOp) :
    ∀ g : Geometry, g.loop_shape.length = g.loop_indices.length →
      (runGeom ops g).loop_shape.length = (runGeom ops g).loop_indices.length := by
  induction ops with
  | nil => intro g h; exact h
  | cons op rest ih =>
    intro g h
    exact ih (applyGeomOp op g) (applyGeomOp_shape_indices op g h)

/-- Claim C1: for every sequence of sweep entries, sweep steps, sweep
exits, nested-session entries/exits and address skips, the invariant
`len(loop_shape) == len(loop_indices)` is preserved — hence it holds at
the start and end of every `measure` call; moreover `Sweep.__iter__`
appends exactly one extent to `loop_shape`, one index to `loop_indices`
and one zero component to `action_indices`, and sweep exhaustion
(`step_out(reduce_dimension=True)`) removes exactly one entry from each of
`loop_shape` and `loop_indices`. -/
theorem C1_loop_geometry_invariant :
    (∀ ops g, g.loop_shape.length = g.loop_indices.length →
        (runGeom ops g).loop_shape.length = (runGeom ops g).loop_indices.length)
  ∧ (∀ seqLen reverse g,
        (sweep_iter seqLen reverse g).loop_shape = g.loop_shape ++ [seqLen]
      ∧ (sweep_iter seqLen reverse g).loop_indices
          = g.loop_indices ++ [if reverse then (seqLen : Int) - 1 else 0]
      ∧ (sweep_iter seqLen reverse g).action_indices = g.action_indices ++ [0])
  ∧ (∀ g, (step_out true g).loop_shape = g.loop_shape.dropLast
      ∧ (step_out true g).loop_indices = g.loop_indices.dropLast)
  ∧ (∀ g : Geometry, g.loop_shape ≠ [] →
        (step_out true g).loop_shape.length + 1 = g.loop_shape.length)
  ∧ (∀ g : Geometry, g.loop_indices ≠ [] →
        (step_out true g).loop_indices.length + 1 = g.loop_indices.length) := by
  refine ⟨runGeom_shape_indices, ?_, ?_, ?_, ?_⟩
  · intro seqLen reverse g; exact ⟨rfl, rfl, rfl⟩
  · intro g; exact ⟨rfl, rfl⟩
  · intro g h
    have hp : 0 < g.loop_shape.length := List.length_pos.mpr h
    simp [step_out]
    omega
  · intro g h
    have hp : 0 < g.loop_indices.length := List.length_pos.mpr h
    simp [step_out]
    omega

/-- Witness for C1 at a concrete trace: enter a 3-element sweep, take one
step, exit the sweep, starting from the initial geometry of
`Measurement.__enter__`. -/
theorem C1_loop_geometry_invariant_witness :
    ((runGeom [GeomOp.sweepEnter 3 false, GeomOp.sweepStep 0 1, GeomOp.sweepExit]
        ⟨[], [], [0]⟩).loop_shape.length
      = (runGeom [GeomOp.sweepEnter 3 false, GeomOp.sweepStep 0 1, GeomOp.sweepExit]
        ⟨[], [], [0]⟩).loop_indices.length)
  ∧ (step_out true ⟨[3], [0], [0, 0]⟩).loop_shape.length + 1
      = (Geometry.mk [3] [0] [0, 0]).loop_shape.length
  ∧ (step_out true ⟨[3], [0], [0, 0]⟩).loop_indices.length + 1
      = (Geometry.mk [3] [0] [0, 0]).loop_indices.length :=
  ⟨C1_loop_geometry_invariant.1
    [GeomOp.sweepEnter 3 false, GeomOp.sweepStep 0 1, GeomOp.sweepExit]
    ⟨[], [], [0]⟩ rfl,
   C1_loop_geometry_invariant.2.2.2.1 ⟨[3], [0], [0, 0]⟩ (by decide),
   C1_loop_geometry_invariant.2.2.2.2 ⟨[3], [0], [0, 0]⟩ (by decide)⟩

/-! ## Action registry lemmas -/

lemma lookupAction_append_some (reg t : ActionRegistry) (ai : List Int) (s : String)
    (h : lookupAction reg ai = some s) :
    lookupAction (reg ++ t) ai = some s := by
  induction reg with
  | nil => simp [lookupAction] at h
  | cons p rest ih =>
    obtain ⟨a, s2⟩ := p
    by_cases ha : a = ai
    · simp only [lookupAction, if_pos ha] at h
      simp only [List.cons_append, lookupAction, if_pos ha]
      exact h
    · simp only [lookupAction, if_neg ha] at h
      simp only [List.cons_append, lookupAction, if_neg ha]
      exact ih h

lemma lookupAction_append_none (reg : ActionRegistry) (ai ai2 : List Int) (n : String)
    (h : lookupAction reg ai = none) :
    lookupAction (reg ++ [(ai2, n)]) ai = if ai2 = ai then some n else none := by
  induction reg with
  | nil => simp [lookupAction]
  | cons p rest ih =>
    obtain ⟨a, s2⟩ := p
    by_cases ha : a = ai
    · simp [lookupAction, ha] at h
    · simp only [lookupAction, if_neg ha] at h
      simp only [List.cons_append, lookupAction, if_neg ha]
      exact ih h

lemma verify_action_ok_mono (reg reg2 : ActionRegistry) (ai : List Int) (n : String)
    (h : verify_action reg ai n true = .ok reg2) :
    (∀ a s, lookupAction reg a = some s → lookupAction reg2 a = some s)
    ∧ lookupAction reg2 ai = some n := by
  unfold verify_action at h
  cases hl : lookupAction reg ai with
  | none =>
    rw [hl] at h
    simp only [if_true, Except.ok.injEq] at h
    subst h
    refine ⟨fun a s hs => lookupAction_append_some _ _ _ _ hs, ?_⟩
    rw [lookupAction_append_none _ _ _ _ hl]
    simp
  | some registered =>
    rw [hl] at h
    by_cases hn : n = registered
    · simp only [if_pos hn, Except.ok.injEq] at h
      subst h
      exact ⟨fun a s hs => hs, by rw [hl, hn]⟩
    · simp [if_neg hn] at h

lemma runActionSequence_mono (L : List (List Int × String)) :
    ∀ reg reg2, runActionSequence reg L = .ok reg2 →
      ∀ a s, lookupAction reg a = some s → lookupAction reg2 a = some s := by
  induction L with
  | nil =>
    intro reg reg2 h a s hs
    simp only [runActionSequence, Except.ok.injEq] at h
    subst h
    exact hs
  | cons q rest ih =>
    intro reg reg2 h a s hs
    obtain ⟨ai, n⟩ := q
    unfold runActionSequence at h
    cases hv : verify_action reg ai n true with
    | ok reg1 =>
      rw [hv] at h
      exact ih reg1 reg2 h a s ((verify_action_ok_mono _ _ _ _ hv).1 a s hs)
    | error e =>
      rw [hv] at h
      simp at h

lemma runActionSequence_all (L : List (List Int × String)) :
    ∀ reg reg2, runActionSequence reg L = .ok reg2 →
      ∀ p ∈ L, lookupAction reg2 p.1 = some p.2 := by
  induction L with
  | nil => intro reg reg2 h p hp; simp at hp
  | cons q rest ih =>
    intro reg reg2 h p hp
    obtain ⟨ai, n⟩ := q
    unfold runActionSequence at h
    cases hv : verify_action reg ai n true with
    | ok reg1 =>
      rw [hv] at h
      rcases List.mem_cons.mp hp with hp1 | hp2
      · subst hp1
        exact runActionSequence_mono rest reg1 reg2 h ai n
          (verify_action_ok_mono _ _ _ _ hv).2
      · exact ih reg1 reg2 h p hp2
    | error e =>
      rw [hv] at h
      simp at h

lemma runActionSequence_replay (L : List (List Int × String)) :
    ∀ reg, (∀ p ∈ L, lookupAction reg p.1 = some p.2) →
      runActionSequence reg L = .ok reg := by
  induction L with
  | nil => intro reg h; rfl
  | cons q rest ih =>
    intro reg h
    obtain ⟨ai, n⟩ := q
    have h1 : lookupAction reg ai = some n := h (ai, n) (List.mem_cons_self _ _)
    have hv : verify_action reg ai n true = .ok reg := by
      unfold verify_action
      rw [h1]
      simp
    unfold runActionSequence
    rw [hv]
    exact ih reg (fun p hp => h p (List.mem_cons_of_mem _ hp))

/-- Claim C2: the first verification at an address registers
`(address, name)`; a repeat with the identical name succeeds and leaves
the registry unchanged; a repeat with a different name fails with the
error naming the expected and the received action; and re-running an
identical action sequence that once succeeded never raises. -/
theorem C2_verify_action_registry :
    (∀ reg ai n, lookupAction reg ai = none →
        verify_action reg ai n true = .ok (reg ++ [(ai, n)]))
  ∧ (∀ reg ai n, lookupAction reg ai = some n →
        verify_action reg ai n true = .ok reg)
  ∧ (∀ reg ai n m, lookupAction reg ai = some m → n ≠ m →
        verify_action reg ai n true = .error (mismatchMessage m n))
  ∧ (∀ L reg0 reg, runActionSequence reg0 L = .ok reg →
        runActionSequence reg L = .ok reg) := by
  refine ⟨?_, ?_, ?_, ?_⟩
  · intro reg ai n h
    unfold verify_action
    rw [h]
    simp
  · intro reg ai n h
    unfold verify_action
    rw [h]
    simp
  · intro reg ai n m h hnm
    unfold verify_action
    rw [h]
    simp [hnm]
  · intro L reg0 reg h
    exact runActionSequence_replay L reg (runActionSequence_all L reg0 reg h)

/-- Witness for C2 at concrete inputs: registering an address, replaying
it with the same name, replaying it with a different name, and replaying
a whole one-step sequence. -/
theorem C2_verify_action_registry_witness :
    verify_action [] [0] nameX true = .ok [([0], nameX)]
  ∧ verify_action [([0], nameX)] [0] nameX true = .ok [([0], nameX)]
  ∧ verify_action [([0], nameX)] [0] nameY true
      = .error (mismatchMessage nameX nameY)
  ∧ runActionSequence [([0], nameX)] [([0], nameX)] = .ok [([0], nameX)] :=
  ⟨C2_verify_action_registry.1 [] [0] nameX rfl,
   C2_verify_action_registry.2.1 [([0], nameX)] [0] nameX rfl,
   C2_verify_action_registry.2.2.1 [([0], nameX)] [0] nameY nameX rfl (by decide),
   C2_verify_action_registry.2.2.2 [([0], nameX)] [] [([0], nameX)] rfl⟩

/-! ## Mask stack lemmas -/

lemma unmask_fold_cons (broken : Slot → Bool) (p : MaskedProperty)
    (ps : List MaskedProperty) (e : Env) :
    unmask_fold broken (p :: ps) e =
      unmask_fold broken ps
        (match restore_masked broken p e with
         | some e2 => e2
         | none => e) := rfl

lemma unmask_all_mask_push_env (sl : Slot) (v : Int) (s : MaskState) :
    (unmask_all noFail (mask_push sl v s)).env = (unmask_all noFail s).env := by
  show unmask_fold noFail
      ((s.masked_properties ++ [(⟨sl, s.env sl, v⟩ : MaskedProperty)]).reverse)
      (Function.update s.env sl v)
    = unmask_fold noFail s.masked_properties.reverse s.env
  rw [List.reverse_append]
  simp only [List.reverse_cons, List.reverse_nil, List.nil_append, List.singleton_append]
  rw [unmask_fold_cons]
  simp [restore_masked, noFail, Function.update_idem, Function.update_eq_self]

lemma unmask_all_mask_push_all_env (ps : List (Slot × Int)) :
    ∀ s : MaskState,
      (unmask_all noFail (mask_push_all ps s)).env = (unmask_all noFail s).env := by
  induction ps with
  | nil => intro s; rfl
  | cons p rest ih =>
    intro s
    show (unmask_all noFail (mask_push_all rest (mask_push p.1 p.2 s))).env = _
    rw [ih (mask_push p.1 p.2 s), unmask_all_mask_push_env]

lemma unmask_fold_congr (broken : Slot → Bool) (l : List MaskedProperty) :
    ∀ e1 e2 : Env, ∀ sl, e1 sl = e2 sl →
      unmask_fold broken l e1 sl = unmask_fold broken l e2 sl := by
  induction l with
  | nil => intro e1 e2 sl h; exact h
  | cons p ps ih =>
    intro e1 e2 sl h
    rw [unmask_fold_cons, unmask_fold_cons]
    cases hb : broken p.slot with
    | true =>
      simp only [restore_masked, hb, if_true]
      exact ih e1 e2 sl h
    | false =>
      simp only [restore_masked, hb, Bool.false_eq_true, if_false]
      apply ih
      simp only [Function.update_apply]
      by_cases hps : sl = p.slot
      · simp [hps]
      · simp [hps, h]

lemma unmask_all_mask_push_env_pt (broken : Slot → Bool) (sl sl2 : Slot) (v : Int)
    (s : MaskState) (hsl : broken sl = false) :
    (unmask_all broken (mask_push sl2 v s)).env sl = (unmask_all broken s).env sl := by
  show unmask_fold broken
      ((s.masked_properties ++ [(⟨sl2, s.env sl2, v⟩ : MaskedProperty)]).reverse)
      (Function.update s.env sl2 v) sl
    = unmask_fold broken s.masked_properties.reverse s.env sl
  rw [List.reverse_append]
  simp only [List.reverse_cons, List.reverse_nil, List.nil_append, List.singleton_append]
  rw [unmask_fold_cons]
  cases hb : broken sl2 with
  | false =>
    simp [restore_masked, hb, Function.update_idem, Function.update_eq_self]
  | true =>
    have hne : sl ≠ sl2 := by
      intro hEq
      rw [hEq, hb] at hsl
      exact Bool.noConfusion hsl
    simp only [restore_masked, hb, if_true]
    apply unmask_fold_congr
    simp [Function.update_apply, hne]

lemma unmask_all_mask_push_all_env_pt (broken : Slot → Bool) (ps : List (Slot × Int))
    (sl : Slot) (hsl : broken sl = false) :
    ∀ s : MaskState,
      (unmask_all broken (mask_push_all ps s)).env sl = (unmask_all broken s).env sl := by
  induction ps with
  | nil => intro s; rfl
  | cons p rest ih =>
    intro s
    show (unmask_all broken (mask_push_all rest (mask_push p.1 p.2 s))).env sl = _
    rw [ih (mask_push p.1 p.2 s), unmask_all_mask_push_env_pt broken sl p.1 p.2 s hsl]

/-- Claim C3: pushing any sequence of masks (parameter, attribute and
key targets alike) and then unmasking the whole stack restores the
environment exactly, restoring in reverse-of-push order, and empties the
mask-record list; a second whole-stack unmask is a no-op. -/
theorem C3_mask_unmask_roundtrip :
    (∀ env0 ps,
        (unmask_all noFail (mask_push_all ps ⟨env0, []⟩)).env = env0
      ∧ (unmask_all noFail (mask_push_all ps ⟨env0, []⟩)).masked_properties = [])
  ∧ (∀ env0 obj attr v,
        (unmask_all noFail (mask_attr obj attr v ⟨env0, []⟩)).env = env0)
  ∧ (∀ env0 obj v,
        (unmask_all noFail (mask_parameter obj v ⟨env0, []⟩)).env = env0)
  ∧ (∀ env0 obj key v,
        (unmask_all noFail (mask_key obj key v ⟨env0, []⟩)).env = env0)
  ∧ (∀ broken s, unmask_all broken (unmask_all broken s) = unmask_all broken s) := by
  refine ⟨?_, ?_, ?_, ?_, ?_⟩
  · intro env0 ps
    exact ⟨(unmask_all_mask_push_all_env ps ⟨env0, []⟩).trans rfl, rfl⟩
  · intro env0 obj attr v
    exact (unmask_all_mask_push_env _ _ ⟨env0, []⟩).trans rfl
  · intro env0 obj v
    exact (unmask_all_mask_push_env _ _ ⟨env0, []⟩).trans rfl
  · intro env0 obj key v
    exact (unmask_all_mask_push_env _ _ ⟨env0, []⟩).trans rfl
  · intro broken s
    rfl

/-- Claim C4 is false on the code: a mask pushed via a nested session is
appended to the NESTED session's own `_masked_properties` (each
`Measurement.__init__` makes a fresh list and `mask` appends to
`self._masked_properties`), so the outermost session's exit, which only
unmasks its own stack, does not revert it; the nested session's own exit
does.  Concrete input: nested session masks attribute `a` of object `0`
(original value 0) to 5. -/
theorem C4_counterexample :
    (nested_mask slotA 5 ⟨envZero, [], []⟩).outer_masked = []
  ∧ (nested_mask slotA 5 ⟨envZero, [], []⟩).nested_masked = [⟨slotA, 0, 5⟩]
  ∧ (outer_exit_unmask (nested_mask slotA 5 ⟨envZero, [], []⟩)).env slotA = 5
  ∧ envZero slotA = 0
  ∧ (nested_exit_unmask (nested_mask slotA 5 ⟨envZero, [], []⟩)).env slotA = 0 := by
  refine ⟨rfl, ?_, ?_, rfl, ?_⟩ <;> decide

/-- Claim C4, amended: mask records pushed via a nested session go onto
the nested session's own mask stack (the outermost stack is untouched)
and are reverted by the nested session's own exit. -/
theorem C4_amended_nested_mask_stack :
    (∀ env0 ps, (nested_mask_all ps ⟨env0, [], []⟩).outer_masked = [])
  ∧ (∀ env0 ps,
      (nested_exit_unmask (nested_mask_all ps ⟨env0, [], []⟩)).env = env0
    ∧ (nested_exit_unmask (nested_mask_all ps ⟨env0, [], []⟩)).nested_masked = []) := by
  have hspec : ∀ (ps : List (Slot × Int)) (env0 : Env) (o n : List MaskedProperty),
      nested_mask_all ps ⟨env0, o, n⟩ =
        ⟨(mask_push_all ps ⟨env0, n⟩).env, o,
         (mask_push_all ps ⟨env0, n⟩).masked_properties⟩ := by
    intro ps
    induction ps with
    | nil => intro env0 o n; rfl
    | cons p rest ih =>
      intro env0 o n
      show nested_mask_all rest (nested_mask p.1 p.2 ⟨env0, o, n⟩) = _
      have h1 : nested_mask p.1 p.2 ⟨env0, o, n⟩
          = ⟨(mask_push p.1 p.2 ⟨env0, n⟩).env, o,
             (mask_push p.1 p.2 ⟨env0, n⟩).masked_properties⟩ := rfl
      rw [h1, ih]
      rfl
  constructor
  · intro env0 ps
    rw [hspec]
  · intro env0 ps
    rw [hspec]
    refine ⟨?_, rfl⟩
    show (unmask_all noFail ⟨(mask_push_all ps ⟨env0, []⟩).env,
        (mask_push_all ps ⟨env0, []⟩).masked_properties⟩).env = env0
    have h2 : (⟨(mask_push_all ps ⟨env0, []⟩).env,
        (mask_push_all ps ⟨env0, []⟩).masked_properties⟩ : MaskState)
        = mask_push_all ps ⟨env0, []⟩ := rfl
    rw [h2]
    exact (unmask_all_mask_push_all_env ps ⟨env0, []⟩).trans rfl

/-- The state used by the C5 counterexample and witness: attribute `a` of
object `0` masked to 5, then attribute `b` of object `0` masked to 7,
with a set-contract that raises exactly on slot `b`. -/
def sC5 : MaskState := mask_push slotB 7 (mask_push slotA 5 ⟨envZero, []⟩)

/-- Claim C5 is false on the code for the filtered unmask path:
`unmask(obj)` restores the matching records in reverse-of-push order with
`raise_exception=True` (the default), so the first failing restore
re-raises, the earlier-pushed matching record is left unrestored (slot
`a` keeps its masked value 5 instead of its original 0), and
`_masked_properties` is not pruned. -/
theorem C5_counterexample :
    (unmask_matching brokenB 0 none none sC5).2 = some ⟨slotB, 0, 7⟩
  ∧ (unmask_matching brokenB 0 none none sC5).1.env slotA = 5
  ∧ envZero slotA = 0
  ∧ (unmask_matching brokenB 0 none none sC5).1.masked_properties
      = sC5.masked_properties := by
  refine ⟨?_, ?_, rfl, ?_⟩ <;> decide

/-- Claim C5, amended: the whole-stack unmask (`unmask_all`, used by
`__exit__`) passes `raise_exception=False`, so a failing restore is
caught and logged, every record whose own restore succeeds is still
restored, and the record list is cleared; the filtered unmask
(`unmask(obj, ...)`) instead re-raises the first failure, leaving
`_masked_properties` unchanged. -/
theorem C5_corrected_unmask_failure_handling :
    (∀ env0 ps (broken : Slot → Bool) sl, broken sl = false →
        (unmask_all broken (mask_push_all ps ⟨env0, []⟩)).env sl = env0 sl)
  ∧ (∀ broken s, (unmask_all broken s).masked_properties = [])
  ∧ (∀ broken obj attr key s p,
        (unmask_matching broken obj attr key s).2 = some p →
        (unmask_matching broken obj attr key s).1.masked_properties
          = s.masked_properties) := by
  refine ⟨?_, ?_, ?_⟩
  · intro env0 ps broken sl h
    exact (unmask_all_mask_push_all_env_pt broken ps sl h ⟨env0, []⟩).trans rfl
  · intro broken s
    rfl
  · intro broken obj attr key s p h
    unfold unmask_matching at h ⊢
    rcases hq : unmask_seq broken
        ((s.masked_properties.filter (matches_unmask_filter obj attr key)).reverse)
        s.env with ⟨e, op⟩
    rw [hq] at h
    cases op with
    | none => exact Option.noConfusion h
    | some q => rfl

/-- Witness for C5 at concrete inputs: with the set-contract broken on
slot `b`, the whole-stack unmask still restores slot `a`, clears the
list, and the aborted filtered unmask leaves the record list unchanged. -/
theorem C5_corrected_unmask_failure_handling_witness :
    (unmask_all brokenB (mask_push_all [(slotA, 5), (slotB, 7)] ⟨envZero, []⟩)).env slotA
      = envZero slotA
  ∧ (unmask_all brokenB sC5).masked_properties = []
  ∧ (unmask_matching brokenB 0 none none sC5).1.masked_properties
      = sC5.masked_properties :=
  ⟨C5_corrected_unmask_failure_handling.1 envZero [(slotA, 5), (slotB, 7)] brokenB slotA
      (by decide),
   C5_corrected_unmask_failure_handling.2.1 brokenB sC5,
   C5_corrected_unmask_failure_handling.2.2 brokenB 0 none none sC5 ⟨slotB, 0, 7⟩
      (by decide)⟩

lemma pause_poll_unpaused (sched : List (List ControlAction)) :
    ∀ c c2, pause_poll sched c = some c2 → c2.is_paused = false := by
  induction sched with
  | nil =>
    intro c c2 h
    unfold pause_poll at h
    by_cases hp : c.is_paused = true
    · rw [if_pos hp] at h
      exact Option.noConfusion h
    · rw [if_neg hp] at h
      cases h
      exact Bool.not_eq_true _ |>.mp hp
  | cons b rest ih =>
    intro c c2 h
    unfold pause_poll at h
    by_cases hp : c.is_paused = true
    · rw [if_pos hp] at h
      exact ih _ _ h
    · rw [if_neg hp] at h
      cases h
      exact Bool.not_eq_true _ |>.mp hp

/-- Claim C6 is false on the code for a session paused at a suspend
point: the `is_stopped` check precedes the pause poll at both suspend
points and is never re-checked after the poll, so a measurement thread
parked inside the poll when `stop()` lands (which clears `is_paused`)
wakes and proceeds — `Sweep.__next__` produces one more sweep value and
`measure` dispatches one more measurement in a state with `is_stopped`
set; `SystemExit` is only raised at the following suspend point.
Concrete input: a running session, paused, with `stop()` arriving during
one sleep of the poll. -/
theorem C6_counterexample :
    (stop ⟨true, true, false⟩ : ControlState) = ⟨true, false, true⟩
  ∧ sweep_next_suspend ⟨true, true, false⟩ [[ControlAction.stopA]]
      = SuspendResult.proceed ⟨true, false, true⟩
  ∧ measure_suspend ⟨true, true, false⟩ true [[ControlAction.stopA]]
      = SuspendResult.proceed ⟨true, false, true⟩
  ∧ sweep_next_suspend ⟨true, false, true⟩ [] = SuspendResult.systemExit :=
  ⟨rfl, rfl, rfl, rfl⟩

/-- Claim C6, amended: `stop()` sets `is_stopped` and unpauses; a suspend
point whose entry check runs with `is_stopped` set raises `SystemExit`
whatever happens afterwards.  But a suspend point already parked in its
pause poll when `stop()` arrives observes no `SystemExit` there: it
either stays parked or wakes (the poll read sees `is_paused == False`)
and proceeds, producing one more sweep value or dispatching one more
measurement; the stop is then observed at the following suspend point.
Session exit still reverts all masks and finalizes the dataset, or
safely closes it when every recorded array is a setpoint array. -/
theorem C6_corrected_stop_semantics :
    (∀ c, (stop c).is_stopped = true ∧ (stop c).is_paused = false)
  ∧ (∀ c sched, c.is_context_manager = true → c.is_stopped = true →
        sweep_next_suspend c sched = SuspendResult.systemExit)
  ∧ (∀ c sched sameThread, c.is_context_manager = true → c.is_stopped = true →
        measure_suspend c sameThread sched = SuspendResult.systemExit)
  ∧ (∀ c sched, c.is_context_manager = true → c.is_stopped = false →
      c.is_paused = true →
        sweep_next_suspend c sched = SuspendResult.parked
      ∨ ∃ c2, sweep_next_suspend c sched = SuspendResult.proceed c2
           ∧ c2.is_paused = false)
  ∧ (∀ env0 ps,
        (unmask_all noFail (mask_push_all ps ⟨env0, []⟩)).env = env0)
  ∧ (∀ arrays : List Bool,
        exit_dataset_outcome arrays = .closed ↔ arrays.all (fun b => b) = true) := by
  refine ⟨?_, ?_, ?_, ?_, ?_, ?_⟩
  · intro c
    exact ⟨rfl, rfl⟩
  · intro c sched h1 h2
    simp [sweep_next_suspend, h1, h2]
  · intro c sched sameThread h1 h2
    simp [measure_suspend, h1, h2]
  · intro c sched h1 h2 h3
    simp only [sweep_next_suspend, h1, h2, Bool.not_true, Bool.false_eq_true,
      if_false]
    cases hq : pause_poll sched c with
    | none => exact Or.inl rfl
    | some c2 => exact Or.inr ⟨c2, rfl, pause_poll_unpaused sched c c2 hq⟩
  · intro env0 ps
    exact (unmask_all_mask_push_all_env ps ⟨env0, []⟩).trans rfl
  · intro arrays
    cases hb : arrays.all (fun b => b) <;> simp [exit_dataset_outcome, hb]

/-- Witness for C6 at concrete inputs: stopping a paused running session,
a suspend point entered after the stop, a suspend point parked in its
poll when the stop lands, and exiting with one pushed mask. -/
theorem C6_corrected_stop_semantics_witness :
    ((stop ⟨true, true, false⟩).is_stopped = true
      ∧ (stop ⟨true, true, false⟩).is_paused = false)
  ∧ sweep_next_suspend ⟨true, false, true⟩ [] = SuspendResult.systemExit
  ∧ measure_suspend ⟨true, false, true⟩ true [] = SuspendResult.systemExit
  ∧ (sweep_next_suspend ⟨true, true, false⟩ [[ControlAction.stopA]]
        = SuspendResult.parked
      ∨ ∃ c2, sweep_next_suspend ⟨true, true, false⟩ [[ControlAction.stopA]]
           = SuspendResult.proceed c2
           ∧ c2.is_paused = false)
  ∧ (unmask_all noFail (mask_push_all [(slotA, 5)] ⟨envZero, []⟩)).env = envZero
  ∧ (exit_dataset_outcome [true] = .closed ↔ ([true].all (fun b => b)) = true) :=
  ⟨C6_corrected_stop_semantics.1 ⟨true, true, false⟩,
   C6_corrected_stop_semantics.2.1 ⟨true, false, true⟩ [] rfl rfl,
   C6_corrected_stop_semantics.2.2.1 ⟨true, false, true⟩ [] true rfl rfl,
   C6_corrected_stop_semantics.2.2.2.1 ⟨true, true, false⟩ [[ControlAction.stopA]]
     rfl rfl rfl,
   C6_corrected_stop_semantics.2.2.2.2.1 envZero [(slotA, 5)],
   C6_corrected_stop_semantics.2.2.2.2.2 [true]⟩

/-- Claim C7 is false on the code as regards what is counted: the cap in
`_create_data_array` tests `len(running_measurement().data_arrays)`, which
holds only the measured arrays — setpoint arrays live in `set_arrays` and
are not counted.  Concrete input: a session holding 1 measured array and 5
setpoint arrays with `max_arrays = 2`; the claimed total of 6 has reached
the ceiling, yet creation succeeds. -/
theorem C7_counterexample :
    create_data_array_check true false ⟨1, 5⟩ 2 = .ok ()
  ∧ 2 ≤ 1 + 5 := by
  exact ⟨rfl, by decide⟩

/-- Claim C7, amended: provided a parameter or a name is supplied,
creating a data array fails with the too-many-arrays error exactly when
the number of MEASURED data arrays (`data_arrays`, setpoint arrays
excluded) has reached `Measurement.max_arrays`, and succeeds below that
ceiling. -/
theorem C7_amended_max_arrays (hasParameter hasName : Bool) (counts : ArrayCounts)
    (maxA : Nat) (h : hasParameter = true ∨ hasName = true) :
    (create_data_array_check hasParameter hasName counts maxA
        = .error .tooManyArrays ↔ maxA ≤ counts.data_array_count)
  ∧ (counts.data_array_count < maxA →
      create_data_array_check hasParameter hasName counts maxA = .ok ()) := by
  have hcond : (!hasParameter && !hasName) = false := by
    rcases h with h | h <;> simp [h]
  constructor
  · by_cases hle : maxA ≤ counts.data_array_count
    · simp [create_data_array_check, hcond, hle]
    · simp [create_data_array_check, hcond, hle]
  · intro hlt
    simp [create_data_array_check, hcond, Nat.not_le.mpr hlt]

/-- Witness for C7 at concrete inputs: 3 measured arrays with a ceiling
of 3. -/
theorem C7_amended_max_arrays_witness :
    (create_data_array_check true false ⟨3, 5⟩ 3 = .error .tooManyArrays ↔ 3 ≤ 3)
  ∧ (3 < 3 → create_data_array_check true false ⟨3, 5⟩ 3 = .ok ()) :=
  C7_amended_max_arrays true false ⟨3, 5⟩ 3 (Or.inl rfl)

/-- Claim C8 is false on the code as regards purity: `skip` (and likewise
`revert`) assigns the new address to `self.action_indices` — session
state — before returning it.  Concrete input: a session at action
indices `(0, 3)`; after `skip()` the session's own `action_indices` has
changed to `(0, 4)`. -/
theorem C8_counterexample :
    (skip 1 ⟨[3], [0], [0, 3]⟩).2.action_indices ≠ ([0, 3] : List Int)
  ∧ (skip 1 ⟨[3], [0], [0, 3]⟩).1 = ([0, 4] : List Int) := by
  decide

/-- Claim C8, amended: `skip(N)` and `revert(N)` compute the new address
by adding `N` to (resp. subtracting `N` from) the last component, store
it into the session's `action_indices`, and return it; no other session
state (`loop_shape`, `loop_indices`) is modified. -/
theorem C8_amended_skip_revert :
    (∀ g N xs x, g.action_indices = xs ++ [x] →
        (skip N g).1 = xs ++ [x + N]
      ∧ (skip N g).2.action_indices = xs ++ [x + N]
      ∧ (skip N g).2.loop_shape = g.loop_shape
      ∧ (skip N g).2.loop_indices = g.loop_indices)
  ∧ (∀ g N xs x, g.action_indices = xs ++ [x] →
        (revert N g).1 = xs ++ [x - N]
      ∧ (revert N g).2.action_indices = xs ++ [x - N]
      ∧ (revert N g).2.loop_shape = g.loop_shape
      ∧ (revert N g).2.loop_indices = g.loop_indices) := by
  constructor
  · intro g N xs x h
    refine ⟨?_, ?_, rfl, rfl⟩ <;> simp [skip, h, updateLast_concat]
  · intro g N xs x h
    refine ⟨?_, ?_, rfl, rfl⟩ <;> simp [revert, h, updateLast_concat]

/-- Witness for C8 at a concrete input: `skip(2)` and `revert(2)` on a
session at action indices `(0, 3)`. -/
theorem C8_amended_skip_revert_witness :
    ((skip 2 ⟨[3], [0], [0, 3]⟩).1 = [0] ++ [3 + 2]
      ∧ (skip 2 ⟨[3], [0], [0, 3]⟩).2.action_indices = [0] ++ [3 + 2]
      ∧ (skip 2 ⟨[3], [0], [0, 3]⟩).2.loop_shape = [3]
      ∧ (skip 2 ⟨[3], [0], [0, 3]⟩).2.loop_indices = [0])
  ∧ ((revert 2 ⟨[3], [0], [0, 3]⟩).1 = [0] ++ [3 - 2]
      ∧ (revert 2 ⟨[3], [0], [0, 3]⟩).2.action_indices = [0] ++ [3 - 2]
      ∧ (revert 2 ⟨[3], [0], [0, 3]⟩).2.loop_shape = [3]
      ∧ (revert 2 ⟨[3], [0], [0, 3]⟩).2.loop_indices = [0]) :=
  ⟨C8_amended_skip_revert.1 ⟨[3], [0], [0, 3]⟩ 2 [0] 3 rfl,
   C8_amended_skip_revert.2 ⟨[3], [0], [0, 3]⟩ 2 [0] 3 rfl⟩

/-- Claim C9: `None` is among `RAW_VALUE_TYPES`, so in a running session
`measure(None, name=n)` with a non-empty name is dispatched through the
bare-value storage path rather than failing with the unsupported-type
error, while `measure(None)` without a name fails with the missing-name
error from `_measure_value`. -/
theorem C9_measure_none_value :
    isRawValueType Measurable.noneV = true
  ∧ (∀ c : ControlState, c.is_context_manager = true → c.is_stopped = false →
      ∀ n : String, n ≠ "" →
        measure c true Measurable.noneV (some n) = .ok .valuePath)
  ∧ (∀ c : ControlState, c.is_context_manager = true → c.is_stopped = false →
      measure c true Measurable.noneV none = .error .missingName) := by
  refine ⟨rfl, ?_, ?_⟩
  · intro c h1 h2 n hn
    simp [measure, h1, h2, measure_dispatch, isCallableValue, isRawValueType]
  · intro c h1 h2
    simp [measure, h1, h2, measure_dispatch, isCallableValue, isRawValueType]

/-- Witness for C9 at concrete inputs: a running, unpaused session,
measuring `None` with and without a name. -/
theorem C9_measure_none_value_witness :
    measure ⟨true, false, false⟩ true Measurable.noneV (some nameX) = .ok .valuePath
  ∧ measure ⟨true, false, false⟩ true Measurable.noneV none = .error .missingName :=
  ⟨C9_measure_none_value.2.1 ⟨true, false, false⟩ rfl rfl nameX (by decide),
   C9_measure_none_value.2.2 ⟨true, false, false⟩ rfl rfl⟩

/-- Claim C10: the running-session pointer never outlives its session —
when the outermost `__enter__` raises it resets the pointer to `None`
before propagating (and a non-raising outermost entry registers the
session), and the outermost `__exit__` clears the pointer as its very
first step, before the except/final actions, the unmasking and the
dataset finalization. -/
theorem C10_running_pointer_lifecycle :
    (∀ self, measurement_enter none self false = .ok (some self))
  ∧ (∀ self, measurement_enter none self true = .error none)
  ∧ (∀ has_exception all_setpoint,
      (measurement_exit_events true has_exception all_setpoint).head?
        = some ExitEvent.clearRunningPointer) := by
  refine ⟨?_, ?_, ?_⟩
  · intro self
    simp [measurement_enter]
  · intro self
    simp [measurement_enter]
  · intro he asp
    cases he <;> cases asp <;> rfl

end QcodesMeasurement
